import Mathlib

/-
  Verification development for the weighted LRU cache (package lrucache)
  and the downloader Job (package downloader) of this repository.

  The cache is embedded shallowly: the intrusive doubly linked recency
  list (container/list, front = most recently used, back = least recently
  used) is represented as a Lean list with the head as the front, and the
  side index map is represented by first-match lookup on that list (the
  two agree on every state whose keys are distinct, which holds for all
  states the operations produce).  All uint64 arithmetic is carried out
  modulo 2^64, exactly as Go does.  A Go runtime panic is represented as
  an Except.error result.
-/

deriving instance DecidableEq for Except

namespace Lrucache

/-- 2^64, the modulus of Go uint64 arithmetic. -/
def U64 : Nat := 18446744073709551616

/-- Go uint64 addition. -/
def add64 (a b : Nat) : Nat := (a + b) % U64

/-- Go uint64 subtraction (wraps around on underflow). -/
def sub64 (a b : Nat) : Nat := (a + (U64 - b % U64)) % U64

/-- The lrucache.ValueType interface: any value exposing Weight() uint64. -/
class ValueType (V : Type) where
  Weight : V → Nat

/-- The Cache struct: maxWeight, occupiedWeight and the recency list of
entries (head = front = most recently used, as in container/list).  The
index map is derived from the entry list rather than stored. -/
structure Cache (V : Type) where
  maxWeight : Nat
  occupiedWeight : Nat
  entries : List (String × V)
deriving DecidableEq

/-- New initializes a cache with the supplied maxWeight.  Note that the Go
code performs no validation of maxWeight here. -/
def New (V : Type) (maxWeight : Nat) : Cache V :=
  { maxWeight := maxWeight, occupiedWeight := 0, entries := [] }

/-- Consulting the index map: the element holding the given key, if any. -/
def findEntry {V : Type} (key : String) (es : List (String × V)) :
    Option (String × V) :=
  es.find? (fun e => e.1 == key)

/-- Removing the element holding the given key from the recency list. -/
def eraseEntry {V : Type} (key : String) (es : List (String × V)) :
    List (String × V) :=
  es.eraseP (fun e => e.1 == key)

/-- Sum of entry.Value.Weight() over a list of entries (exact, not mod 2^64). -/
def sumWeights {V : Type} [ValueType V] (es : List (String × V)) : Nat :=
  (es.map (fun e => ValueType.Weight e.2)).sum

/-- The eviction loop of Insert: repeatedly apply evictOne (take the back
element, subtract its weight, remove it) until occupiedWeight is at most
maxWeight.  evictOne dereferences entries.Back() without a nil check, so
an empty list with occupiedWeight still above maxWeight is a panic.  The
fuel argument only bounds the recursion; it is called with the length of
the entry list, which the loop can never exceed, so the fuel branch is
unreachable. -/
def evictAll {V : Type} [ValueType V] : Nat → Cache V →
    Except String (List V × Cache V)
  | fuel, c =>
    if c.occupiedWeight ≤ c.maxWeight then
      Except.ok ([], c)
    else
      match c.entries.getLast? with
      | none => Except.error "invalid memory address or nil pointer dereference"
      | some e =>
        match fuel with
        | 0 => Except.error "out of fuel"
        | fuel + 1 =>
          match evictAll fuel
              { c with
                occupiedWeight := sub64 c.occupiedWeight (ValueType.Weight e.2),
                entries := c.entries.dropLast } with
          | Except.ok (vs, c2) => Except.ok (e.2 :: vs, c2)
          | Except.error msg => Except.error msg

/-- Insert the supplied value, overwriting any previous entry for the key
(adjusting occupiedWeight by the weight delta and moving the element to
the front), or pushing a fresh element to the front; then evict from the
back until occupiedWeight is at most maxWeight, returning the evicted
values in eviction order.  A nil value is a panic. -/
def Insert {V : Type} [ValueType V] (key : String) (value : Option V)
    (c : Cache V) : Except String (List V × Cache V) :=
  match value with
  | none => Except.error "nil values are not supported"
  | some v =>
    let c1 :=
      match findEntry key c.entries with
      | some e =>
        { c with
          occupiedWeight :=
            add64 (sub64 c.occupiedWeight (ValueType.Weight e.2))
              (ValueType.Weight v),
          entries := (key, v) :: eraseEntry key c.entries }
      | none =>
        { c with
          occupiedWeight := add64 c.occupiedWeight (ValueType.Weight v),
          entries := (key, v) :: c.entries }
    evictAll c1.entries.length c1

/-- Erase as the Go code actually behaves.  When the key is absent it is a
no-op returning nil.  When the key is present, the code executes
c.occupiedWeight -= value.Weight() where value is the still-nil named
return (rather than deletedEntry), a method call on a nil interface: a
runtime panic, reached before any state is mutated. -/
def Erase {V : Type} [ValueType V] (key : String) (c : Cache V) :
    Except String (Option V × Cache V) :=
  match findEntry key c.entries with
  | none => Except.ok (none, c)
  | some _ =>
    Except.error "invalid memory address or nil pointer dereference"

/-- LookUp a previously inserted value: nil without modification when
absent; on a hit the element is moved to the front (most recently used)
and the value returned unchanged. -/
def LookUp {V : Type} [ValueType V] (key : String) (c : Cache V) :
    Option V × Cache V :=
  match findEntry key c.entries with
  | none => (none, c)
  | some e =>
    (some e.2, { c with entries := (key, e.2) :: eraseEntry key c.entries })

/-- CheckInvariants: panics when maxWeight is zero, when occupiedWeight
exceeds maxWeight, or when the index and the recency list disagree (with
the derived index this is exactly a duplicate key in the list). -/
def CheckInvariants {V : Type} [ValueType V] (c : Cache V) :
    Except String Unit :=
  if c.maxWeight = 0 then Except.error "Invalid maxWeight"
  else if c.maxWeight < c.occupiedWeight then Except.error "over maxWeight"
  else if (c.entries.map Prod.fst).Nodup then Except.ok ()
  else Except.error "Length mismatch"

/-- The data written by the custom GobEncode: maxWeight, occupiedWeight and
the entry slice in order of recency of use (front first).  The byte-level
gob framing is the encoding/gob library, external to this repository; it
is faithfully invertible on these three fields. -/
structure EncodedCache (V : Type) where
  maxWeight : Nat
  occupiedWeight : Nat
  entrySlice : List (String × V)
deriving DecidableEq

/-- GobEncode: the entry slice is collected front to back, then maxWeight,
occupiedWeight and the slice are encoded in that order. -/
def GobEncode {V : Type} (c : Cache V) : EncodedCache V :=
  { maxWeight := c.maxWeight,
    occupiedWeight := c.occupiedWeight,
    entrySlice := c.entries }

/-- The decode loop of GobDecode: each decoded entry is pushed at the back
of the fresh entry list. -/
def pushBackAll {V : Type} (es : List (String × V)) : List (String × V) :=
  es.foldl (fun acc ent => acc ++ [ent]) []

/-- GobDecode: decode maxWeight, reset the cache with New, push each
decoded entry at the back (rebuilding the index), then set
occupiedWeight to the decoded value. -/
def GobDecode {V : Type} (b : EncodedCache V) : Cache V :=
  let c0 := New V b.maxWeight
  { c0 with
    entries := pushBackAll b.entrySlice,
    occupiedWeight := b.occupiedWeight }

/-- The key to value mapping realized by a cache. -/
def keyToValue {V : Type} (c : Cache V) (key : String) : Option V :=
  (findEntry key c.entries).map Prod.snd

/-- One public mutating cache operation. -/
inductive CacheOp (V : Type) where
  | insert (key : String) (value : Option V)
  | erase (key : String)

/-- Apply one operation, keeping only the resulting cache state. -/
def applyCacheOp {V : Type} [ValueType V] (op : CacheOp V) (c : Cache V) :
    Except String (Cache V) :=
  match op with
  | CacheOp.insert k v => (Insert k v c).map Prod.snd
  | CacheOp.erase k => (Erase k c).map Prod.snd

/-- Run a sequence of operations, stopping at the first panic. -/
def runOps {V : Type} [ValueType V] : List (CacheOp V) → Cache V →
    Except String (Cache V)
  | [], c => Except.ok c
  | op :: rest, c =>
    match applyCacheOp op c with
    | Except.ok c2 => runOps rest c2
    | Except.error msg => Except.error msg

/-- The weight invariant carried by every reachable cache state:
occupiedWeight is the uint64 (mod 2^64) value of the total weight of the
present entries, and occupiedWeight is at most maxWeight. -/
def CacheInv {V : Type} [ValueType V] (c : Cache V) : Prop :=
  c.occupiedWeight = sumWeights c.entries % U64 ∧
    c.occupiedWeight ≤ c.maxWeight

/-- A concrete ValueType for concrete test inputs: an identifier plus a
weight. -/
structure TestVal where
  id : Nat
  w : Nat
deriving DecidableEq

instance : ValueType TestVal :=
  { Weight := TestVal.w }

end Lrucache

namespace Downloader

open Lrucache

/-- The jobStatusName string constant NOT_STARTED.  jobStatusName is a
string type in the source, so statuses are modelled as strings; the Go
zero value of the type is the empty string. -/
def NOT_STARTED : String := "NOT_STARTED"

/-- The jobStatusName string constant DOWNLOADING. -/
def DOWNLOADING : String := "DOWNLOADING"

/-- The jobStatusName string constant COMPLETED. -/
def COMPLETED : String := "COMPLETED"

/-- The jobStatusName string constant FAILED. -/
def FAILED : String := "FAILED"

/-- The jobStatusName string constant CANCELLED. -/
def CANCELLED : String := "CANCELLED"

/-- JobStatus: the status name, the recorded error (nil or a message) and
the downloaded offset (int64). -/
structure JobStatus where
  Name : String
  Err : Option String
  Offset : Int
deriving DecidableEq

/-- jobSubscriber: the single-use notification channel (identified here by
a numeric id) plus the offset the subscriber waits for. -/
structure JobSub where
  channelId : Nat
  subscribedOffset : Int
deriving DecidableEq

/-- The mutable state of a Job: its status and the ordered subscriber
list (front of the Go list first). -/
structure Job where
  status : JobStatus
  subscribers : List JobSub
deriving DecidableEq

/-- Job.init: status NOT_STARTED with nil error and offset 0, no
subscribers. -/
def initJob : Job :=
  { status := { Name := NOT_STARTED, Err := none, Offset := 0 },
    subscribers := [] }

/-- Job.Download as the source has it today: the body is an explicit ToDo
stub that takes the lock and returns the zero JobStatus without reading
or changing any job state. -/
def Download (job : Job) (offset : Int) (waitForDownload : Bool) :
    JobStatus × Job :=
  ({ Name := "", Err := none, Offset := 0 }, job)

/-- Job.Cancel as the source has it today: the body is an explicit ToDo
stub that takes the lock and returns, changing nothing and notifying
nobody. -/
def Cancel (job : Job) : Job :=
  job

/-- Job.subscribe: append a subscriber with a fresh buffered channel at
the back of the subscriber list. -/
def subscribe (job : Job) (channelId : Nat) (subscribedOffset : Int) : Job :=
  { job with
    subscribers := job.subscribers ++ [⟨channelId, subscribedOffset⟩] }

/-- The firing condition of notifySubscribers: the job status is FAILED or
CANCELLED, or the downloaded offset has reached the subscribed offset. -/
def readyToFire (st : JobStatus) (s : JobSub) : Bool :=
  st.Name == FAILED || st.Name == CANCELLED ||
    decide (st.Offset ≥ s.subscribedOffset)

/-- Job.notifySubscribers: walk the subscriber list front to back; each
subscriber meeting the firing condition is sent the current status, its
channel is closed, and it is removed from the list.  Returns the
remaining list and the fired notifications in firing order. -/
def notifySubscribers (st : JobStatus) :
    List JobSub → List JobSub × List (JobSub × JobStatus)
  | [] => ([], [])
  | s :: rest =>
    let r := notifySubscribers st rest
    if readyToFire st s then (r.1, (s, st) :: r.2)
    else (s :: r.1, r.2)

/-- Job.failWhileDownloading: set the error, set the status name to
FAILED (the offset is untouched) and notify the subscribers.  Returns
the resulting job and the notifications delivered. -/
def failWhileDownloading (downloadErr : String) (job : Job) :
    Job × List (JobSub × JobStatus) :=
  let st := { job.status with Err := some downloadErr, Name := FAILED }
  let r := notifySubscribers st job.subscribers
  ({ status := st, subscribers := r.1 }, r.2)

/-- A terminal job status name. -/
def terminalStatus (n : String) : Prop :=
  n = COMPLETED ∨ n = FAILED ∨ n = CANCELLED

/-- Modelled from the spec: the transition NOT_STARTED to DOWNLOADING made
by the first Download call.  The Download body that performs it is an
unimplemented ToDo stub in the repository, so this step follows the
state machine of the spec. -/
def startFetch (job : Job) : Job :=
  if job.status.Name = NOT_STARTED then
    { job with status := { job.status with Name := DOWNLOADING } }
  else job

/-- Modelled from the spec: one chunk of the background fetch loop, which
is absent from the repository.  While the job is DOWNLOADING the loop
reads a bounded chunk, advances the offset by the chunk length, moves to
COMPLETED once the object size is reached, and invokes subscriber
notification; in any other state the loop is not running. -/
def chunkProgress (chunkLen objectSize : Nat) (job : Job) : Job :=
  if job.status.Name = DOWNLOADING then
    let newOffset := job.status.Offset + (chunkLen : Int)
    let newName := if (objectSize : Int) ≤ newOffset then COMPLETED
      else DOWNLOADING
    let st := { Name := newName, Err := job.status.Err, Offset := newOffset }
    { status := st, subscribers := (notifySubscribers st job.subscribers).1 }
  else job

/-- Modelled from the spec: the intended Cancel, whose body is an
unimplemented ToDo stub in the repository.  A non-terminal job moves to
CANCELLED (offset untouched) and the subscribers are notified; on a
terminal job it is a no-op. -/
def cancelIntended (job : Job) : Job :=
  if job.status.Name = COMPLETED ∨ job.status.Name = FAILED ∨
      job.status.Name = CANCELLED then job
  else
    let st := { job.status with Name := CANCELLED }
    { status := st, subscribers := (notifySubscribers st job.subscribers).1 }

/-- One operation on a job: the stub Download, the stub Cancel, a fetch
failure, and the spec-modelled fetch start, fetch chunk and intended
cancellation. -/
inductive JobOp where
  | download (offset : Int) (wait : Bool)
  | cancel
  | failWhile (downloadErr : String)
  | start
  | chunk (chunkLen objectSize : Nat)
  | cancelIntent

/-- Apply one job operation, keeping the resulting job state. -/
def applyJobOp : JobOp → Job → Job
  | JobOp.download off w, job => (Download job off w).2
  | JobOp.cancel, job => Cancel job
  | JobOp.failWhile e, job => (failWhileDownloading e job).1
  | JobOp.start, job => startFetch job
  | JobOp.chunk n sz, job => chunkProgress n sz job
  | JobOp.cancelIntent, job => cancelIntended job

/-- Run a sequence of job operations. -/
def runJob : List JobOp → Job → Job
  | [], job => job
  | op :: rest, job => runJob rest (applyJobOp op job)

/-- FileInfoKey: the (bucket, object) pair identifying a file info cache
entry. -/
structure FileInfoKey where
  BucketName : String
  ObjectName : String
deriving DecidableEq

/-- Modelled from the spec: FileInfoKey.Key of the internal cache data
package is not under src; the spec requires a reversible, collision-free
single-string encoding of the two components, for example
length-prefixed segments. -/
def FileInfoKey.Key (k : FileInfoKey) : String :=
  toString k.BucketName.length ++ ":" ++ k.BucketName ++
    toString k.ObjectName.length ++ ":" ++ k.ObjectName

/-- FileInfo: the weighted value stored in the file info cache, exactly
the fields updateFileInfoCache constructs. -/
structure FileInfo where
  Key : FileInfoKey
  ObjectGeneration : Int
  FileSize : Nat
  Offset : Nat
deriving DecidableEq

/-- Modelled from the spec: the Weight of a FileInfo (the data package is
not under src) is the number of cached bytes the entry represents, its
offset. -/
instance : ValueType FileInfo :=
  { Weight := FileInfo.Offset }

/-- The Go conversion uint64(x) of an int64 x. -/
def int64ToUint64 (x : Int) : Nat :=
  (x % (U64 : Int)).toNat

/-- The constant object metadata of a job: remote name, generation and
size. -/
structure MinObject where
  Name : String
  Generation : Int
  Size : Nat
deriving DecidableEq

/-- Job.updateFileInfoCache: build the FileInfoKey from the bucket and
object names, encode it to the cache key, build the FileInfo carrying
the generation, the size and the downloaded offset, and insert it into
the file info cache through the ordinary Insert path. -/
def updateFileInfoCache (bucketName : String) (object : MinObject)
    (st : JobStatus) (cache : Cache FileInfo) :
    Except String (List FileInfo × Cache FileInfo) :=
  let fileInfoKey : FileInfoKey :=
    { BucketName := bucketName, ObjectName := object.Name }
  let fileInfoKeyName := fileInfoKey.Key
  let updatedFileInfo : FileInfo :=
    { Key := fileInfoKey, ObjectGeneration := object.Generation,
      FileSize := object.Size, Offset := int64ToUint64 st.Offset }
  Insert fileInfoKeyName (some updatedFileInfo) cache

end Downloader

namespace Lrucache

/-- A cache of capacity 10 holding one entry of weight 4, as produced by
Insert into a fresh cache. -/
def c1Cache : Cache TestVal :=
  { maxWeight := 10, occupiedWeight := 4, entries := [("a", ⟨1, 4⟩)] }

/-- The state reached by inserting weights 2^64 - 1 and 2 into a cache of
capacity 2^64 - 1: the running weight has wrapped around to 1 while both
entries are present. -/
def c2CexCache : Cache TestVal :=
  { maxWeight := U64 - 1, occupiedWeight := 1,
    entries := [("b", ⟨2, 2⟩), ("a", ⟨1, U64 - 1⟩)] }

/-- A small concrete state for the weight invariant witness. -/
def c2WitCache : Cache TestVal :=
  { maxWeight := 10, occupiedWeight := 4, entries := [("a", ⟨1, 4⟩)] }

/-- The weight 4 value inserted under key A in the LRU order scenario. -/
def valA : TestVal := ⟨1, 4⟩

/-- The weight 4 value inserted under key B in the LRU order scenario. -/
def valB : TestVal := ⟨2, 4⟩

/-- The weight 4 value inserted under key C in the LRU order scenario. -/
def valC : TestVal := ⟨3, 4⟩

/-- The cache of capacity 10 after inserting A then B (B most recent). -/
def cacheAB : Cache TestVal :=
  { maxWeight := 10, occupiedWeight := 8,
    entries := [("B", valB), ("A", valA)] }

/-- cacheAB after LookUp("A") has promoted A to most recently used. -/
def cacheABpromoted : Cache TestVal :=
  { maxWeight := 10, occupiedWeight := 8,
    entries := [("A", valA), ("B", valB)] }

end Lrucache

namespace Downloader

open Lrucache

/-- A fresh job carrying one subscriber waiting for offset 10. -/
def c8Job : Job :=
  subscribe initJob 1 10

/-- A job already in the terminal FAILED state at offset 50. -/
def c9Job : Job :=
  { status := { Name := FAILED, Err := some "boom", Offset := 50 },
    subscribers := [] }

/-- A concrete operation sequence exercising every kind of job step. -/
def c9Ops : List JobOp :=
  [JobOp.chunk 5 100, JobOp.download 10 true, JobOp.cancel,
    JobOp.failWhile "io error", JobOp.start, JobOp.cancelIntent]

/-- A concrete FileInfo for the recency promotion witness. -/
def c10Fi : FileInfo :=
  { Key := { BucketName := "b", ObjectName := "o" },
    ObjectGeneration := 1, FileSize := 100, Offset := 5 }

/-- The cache state holding exactly the witness FileInfo under key "k". -/
def c10CacheAfter : Cache FileInfo :=
  { maxWeight := 1000, occupiedWeight := 5, entries := [("k", c10Fi)] }

end Downloader

namespace Lrucache

theorem add64_mod_left (s w : Nat) : add64 (s % U64) w = (s + w) % U64 := by
  simp only [add64, U64]
  omega

theorem sub64_mod_left (s w : Nat) (h : w ≤ s) :
    sub64 (s % U64) w = (s - w) % U64 := by
  simp only [sub64, U64]
  omega

theorem sumWeights_cons {V : Type} [ValueType V] (a : String × V)
    (t : List (String × V)) :
    sumWeights (a :: t) = ValueType.Weight a.2 + sumWeights t := by
  simp [sumWeights]

theorem findEntry_sum_split {V : Type} [ValueType V] (k : String)
    (es : List (String × V)) (e : String × V)
    (h : findEntry k es = some e) :
    ValueType.Weight e.2 ≤ sumWeights es ∧
      sumWeights (eraseEntry k es) = sumWeights es - ValueType.Weight e.2 := by
  induction es with
  | nil => simp [findEntry] at h
  | cons a t ih =>
    cases ha : (a.1 == k) with
    | true =>
      have he : e = a := by
        simp only [findEntry, List.find?_cons, ha] at h
        exact (Option.some_inj.mp h).symm
      subst he
      rw [eraseEntry, List.eraseP_cons, ha]
      simp [sumWeights_cons]
    | false =>
      have hfind : findEntry k t = some e := by
        simp only [findEntry, List.find?_cons, ha] at h
        exact h
      have hsplit := ih hfind
      rw [eraseEntry, List.eraseP_cons, ha]
      rw [show (cond false t (a :: t.eraseP (fun x => x.1 == k)))
          = a :: eraseEntry k t from rfl]
      rw [sumWeights_cons, sumWeights_cons, hsplit.2]
      have h1 := hsplit.1
      constructor <;> omega

theorem sumWeights_getLast {V : Type} [ValueType V]
    (es : List (String × V)) (e : String × V) (h : es.getLast? = some e) :
    sumWeights es = sumWeights es.dropLast + ValueType.Weight e.2 := by
  conv_lhs => rw [(List.dropLast_append_getLast? e h).symm]
  simp [sumWeights]

theorem evictAll_ok_spec {V : Type} [ValueType V] (fuel : Nat)
    (c : Cache V) (vs : List V) (c2 : Cache V)
    (h : evictAll fuel c = Except.ok (vs, c2)) :
    c2.maxWeight = c.maxWeight ∧
      c2.occupiedWeight ≤ c2.maxWeight ∧
      (c2.entries = [] ∨ c2.entries.head? = c.entries.head?) ∧
      (c.occupiedWeight = sumWeights c.entries % U64 →
        c2.occupiedWeight = sumWeights c2.entries % U64) := by
  induction fuel generalizing c vs c2 with
  | zero =>
    rw [evictAll] at h
    split at h
    · next hle =>
      simp only [Except.ok.injEq, Prod.mk.injEq] at h
      obtain ⟨hvs, hc⟩ := h
      subst hc
      refine ⟨rfl, hle, ?_, fun hs => hs⟩
      cases c.entries with
      | nil => exact Or.inl rfl
      | cons a t => exact Or.inr rfl
    · split at h
      · exact absurd h (by simp)
      · exact absurd h (by simp)
  | succ f ih =>
    rw [evictAll] at h
    split at h
    · next hle =>
      simp only [Except.ok.injEq, Prod.mk.injEq] at h
      obtain ⟨hvs, hc⟩ := h
      subst hc
      refine ⟨rfl, hle, ?_, fun hs => hs⟩
      cases c.entries with
      | nil => exact Or.inl rfl
      | cons a t => exact Or.inr rfl
    · next hgt =>
      split at h
      · exact absurd h (by simp)
      · next x e hlast =>
        split at h
        · exact absurd h (by simp)
        · next fuel1 f2 heqf =>
          obtain rfl : f2 = f := by omega
          split at h
          · next vs0 c20 hrec =>
            simp only [Except.ok.injEq, Prod.mk.injEq] at h
            obtain ⟨hvs, hc⟩ := h
            subst hc
            have spec := ih _ _ _ hrec
            have hne : c.entries ≠ [] := by
              intro hnil
              rw [hnil] at hlast
              simp at hlast
            refine ⟨spec.1, spec.2.1, ?_, ?_⟩
            · rcases spec.2.2.1 with hempty | hhead
              · exact Or.inl hempty
              · cases hcE : c.entries with
                | nil => exact absurd hcE hne
                | cons a t =>
                  cases t with
                  | nil =>
                    rw [hcE] at hhead
                    simp only [List.dropLast_single, List.head?_nil] at hhead
                    exact Or.inl (List.head?_eq_none_iff.mp hhead)
                  | cons b t2 =>
                    rw [hcE] at hhead
                    simp only [List.dropLast_cons₂, List.head?_cons] at hhead ⊢
                    exact Or.inr hhead
            · intro hsum
              apply spec.2.2.2
              have hdecomp := sumWeights_getLast c.entries e hlast
              show sub64 c.occupiedWeight (ValueType.Weight e.2)
                = sumWeights c.entries.dropLast % U64
              rw [hsum, sub64_mod_left _ _ (by omega)]
              congr 1
              omega
          · exact absurd h (by simp)

theorem Insert_ok_spec {V : Type} [ValueType V] (k : String) (v : V)
    (c : Cache V) (vs : List V) (c2 : Cache V)
    (h : Insert k (some v) c = Except.ok (vs, c2)) :
    c2.maxWeight = c.maxWeight ∧
      c2.occupiedWeight ≤ c2.maxWeight ∧
      (c2.entries = [] ∨ c2.entries.head? = some (k, v)) ∧
      (c.occupiedWeight = sumWeights c.entries % U64 →
        c2.occupiedWeight = sumWeights c2.entries % U64) := by
  rw [Insert] at h
  cases hfind : findEntry k c.entries with
  | some e =>
    simp only [hfind] at h
    have spec := evictAll_ok_spec _ _ _ _ h
    have hsplit := findEntry_sum_split k c.entries e hfind
    refine ⟨spec.1, spec.2.1, ?_, ?_⟩
    · rcases spec.2.2.1 with hempty | hhead
      · exact Or.inl hempty
      · exact Or.inr hhead
    · intro hsum
      apply spec.2.2.2
      show add64 (sub64 c.occupiedWeight (ValueType.Weight e.2))
          (ValueType.Weight v)
        = sumWeights ((k, v) :: eraseEntry k c.entries) % U64
      rw [hsum, sub64_mod_left _ _ hsplit.1, add64_mod_left,
        sumWeights_cons, hsplit.2]
      rw [show ValueType.Weight ((k, v) : String × V).2
        = ValueType.Weight v from rfl]
      congr 1
      omega
  | none =>
    simp only [hfind] at h
    have spec := evictAll_ok_spec _ _ _ _ h
    refine ⟨spec.1, spec.2.1, ?_, ?_⟩
    · rcases spec.2.2.1 with hempty | hhead
      · exact Or.inl hempty
      · exact Or.inr hhead
    · intro hsum
      apply spec.2.2.2
      show add64 c.occupiedWeight (ValueType.Weight v)
        = sumWeights ((k, v) :: c.entries) % U64
      rw [hsum, add64_mod_left, sumWeights_cons]
      rw [show ValueType.Weight ((k, v) : String × V).2
        = ValueType.Weight v from rfl]
      congr 1
      omega

theorem Erase_ok_spec {V : Type} [ValueType V] (k : String) (c : Cache V)
    (x : Option V) (c2 : Cache V)
    (h : Erase k c = Except.ok (x, c2)) : c2 = c := by
  rw [Erase] at h
  cases hfind : findEntry k c.entries with
  | some e => simp [hfind] at h
  | none =>
    simp only [hfind, Except.ok.injEq, Prod.mk.injEq] at h
    exact h.2.symm

theorem applyCacheOp_inv {V : Type} [ValueType V] (op : CacheOp V)
    (c c2 : Cache V) (h : applyCacheOp op c = Except.ok c2)
    (hc : CacheInv c) : CacheInv c2 := by
  cases op with
  | insert k v =>
    cases v with
    | none => simp [applyCacheOp, Insert, Except.map] at h
    | some v =>
      rw [applyCacheOp] at h
      cases hi : Insert k (some v) c with
      | error m => rw [hi] at h; simp [Except.map] at h
      | ok p =>
        rw [hi] at h
        simp only [Except.map, Except.ok.injEq] at h
        subst h
        have spec := Insert_ok_spec k v c p.1 p.2 (by rw [hi])
        exact ⟨spec.2.2.2 hc.1, spec.2.1⟩
  | erase k =>
    rw [applyCacheOp] at h
    cases he : Erase k c with
    | error m => rw [he] at h; simp [Except.map] at h
    | ok p =>
      rw [he] at h
      simp only [Except.map, Except.ok.injEq] at h
      subst h
      rw [Erase_ok_spec k c p.1 p.2 (by rw [he])]
      exact hc

theorem runOps_inv {V : Type} [ValueType V] (ops : List (CacheOp V))
    (c c2 : Cache V) (h : runOps ops c = Except.ok c2)
    (hc : CacheInv c) : CacheInv c2 := by
  induction ops generalizing c with
  | nil =>
    rw [runOps] at h
    simp only [Except.ok.injEq] at h
    subst h
    exact hc
  | cons op rest ih =>
    rw [runOps] at h
    cases ha : applyCacheOp op c with
    | error m => rw [ha] at h; simp at h
    | ok cm =>
      rw [ha] at h
      exact ih cm h (applyCacheOp_inv op c cm ha hc)

/-- Claim C1: on a key not present, Erase is a no-op returning empty; but
on a key that is present, the code subtracts value.Weight() from the
running weight where value is the still-nil named return, a nil
interface method call: the call panics instead of removing the entry,
decrementing the weight and returning the value. -/
theorem c1_erase_present_key_panics :
    Insert "a" (some (⟨1, 4⟩ : TestVal)) (New TestVal 10)
        = Except.ok ([], c1Cache)
      ∧ Erase "a" c1Cache
        = Except.error "invalid memory address or nil pointer dereference"
      ∧ Erase "missing" c1Cache = Except.ok (none, c1Cache) := by
  decide

/-- Claim C3 counterexample: constructing a cache with maxWeight zero does
not fail: New returns the cache, and the cache is usable (an Insert into
it completes normally, immediately evicting the entry), so there is no
fail-fast at construction time. -/
theorem c3_new_zero_yields_usable_cache :
    New TestVal 0 = { maxWeight := 0, occupiedWeight := 0, entries := [] }
      ∧ Insert "a" (some (⟨1, 4⟩ : TestVal)) (New TestVal 0)
        = Except.ok ([⟨1, 4⟩],
            { maxWeight := 0, occupiedWeight := 0, entries := [] })
      ∧ LookUp "a" (New TestVal 0) = (none, New TestVal 0) := by
  decide

/-- Claim C4: with maxWeight 10 and weight 4 insertions under A, B, C in
that order, inserting C evicts exactly A and returns it as the evicted
value; if LookUp("A") is performed between inserting B and inserting C,
inserting C evicts exactly B instead and A remains present. -/
theorem c4_lru_eviction_order :
    Insert "A" (some valA) (New TestVal 10)
        = Except.ok ([],
            { maxWeight := 10, occupiedWeight := 4, entries := [("A", valA)] })
      ∧ Insert "B" (some valB)
            { maxWeight := 10, occupiedWeight := 4, entries := [("A", valA)] }
        = Except.ok ([], cacheAB)
      ∧ Insert "C" (some valC) cacheAB
        = Except.ok ([valA],
            { maxWeight := 10, occupiedWeight := 8,
              entries := [("C", valC), ("B", valB)] })
      ∧ LookUp "A" cacheAB = (some valA, cacheABpromoted)
      ∧ Insert "C" (some valC) cacheABpromoted
        = Except.ok ([valB],
            { maxWeight := 10, occupiedWeight := 8,
              entries := [("C", valC), ("A", valA)] }) := by
  decide

/-- Claim C2 counterexample: the running weight is a uint64 and wraps
around.  Inserting values of weight 2^64 - 1 and 2 into a cache of
capacity 2^64 - 1 leaves both entries present with occupiedWeight 1,
which is not the sum 2^64 + 1 of the weights of the present entries (so
the eviction loop does not even run although the true total weight far
exceeds the capacity). -/
theorem c2_occupied_weight_overflows :
    runOps
        [CacheOp.insert "a" (some (⟨1, U64 - 1⟩ : TestVal)),
          CacheOp.insert "b" (some ⟨2, 2⟩)]
        (New TestVal (U64 - 1))
      = Except.ok c2CexCache
      ∧ c2CexCache.occupiedWeight ≠ sumWeights c2CexCache.entries := by
  decide

/-- Claim C2 (amended): for every sequence of Insert and Erase operations
on a cache constructed with maxWeight greater than zero, after each
operation that completes without panicking the occupied weight equals
the sum of Weight() over all present entries reduced modulo 2^64 (the
uint64 value of that sum, hence the exact sum whenever it stays below
2^64), and the occupied weight is at most maxWeight. -/
theorem c2_weight_invariant_mod_u64 {V : Type} [ValueType V]
    (maxWeight : Nat) (hpos : 0 < maxWeight) (ops : List (CacheOp V))
    (c : Cache V) (h : runOps ops (New V maxWeight) = Except.ok c) :
    c.occupiedWeight = sumWeights c.entries % U64 ∧
      c.occupiedWeight ≤ c.maxWeight := by
  have hbase : CacheInv (New V maxWeight) := by
    constructor
    · show (0 : Nat) = sumWeights ([] : List (String × V)) % U64
      simp [sumWeights, U64]
    · exact Nat.zero_le _
  exact runOps_inv ops (New V maxWeight) c h hbase

/-- Witness for the amended weight invariant at a concrete run. -/
theorem c2_weight_invariant_mod_u64_witness :
    c2WitCache.occupiedWeight = sumWeights c2WitCache.entries % U64 ∧
      c2WitCache.occupiedWeight ≤ c2WitCache.maxWeight :=
  c2_weight_invariant_mod_u64 10 (by decide)
    [CacheOp.insert "a" (some (⟨1, 4⟩ : TestVal))] c2WitCache (by decide)

/-- Claim C3 (amended): New performs no validation of maxWeight, so a zero
capacity does not fail at construction time (and a negative capacity is
not representable in uint64); the zero capacity is flagged as a
programming error only when CheckInvariants is called on the cache,
which panics. -/
theorem c3_new_unchecked_checkinvariants_panics {V : Type} [ValueType V] :
    (∀ w : Nat,
        New V w = { maxWeight := w, occupiedWeight := 0, entries := [] })
      ∧ ∀ c : Cache V, c.maxWeight = 0 →
          CheckInvariants c = Except.error "Invalid maxWeight" := by
  constructor
  · intro w
    rfl
  · intro c hc
    rw [CheckInvariants, if_pos hc]

/-- Witness: CheckInvariants panics on a concrete zero capacity cache. -/
theorem c3_new_unchecked_checkinvariants_panics_witness :
    New TestVal 0 = { maxWeight := 0, occupiedWeight := 0, entries := [] }
      ∧ CheckInvariants
          ({ maxWeight := 0, occupiedWeight := 0, entries := [] } :
            Cache TestVal)
        = Except.error "Invalid maxWeight" :=
  ⟨c3_new_unchecked_checkinvariants_panics.1 0,
    c3_new_unchecked_checkinvariants_panics.2
      { maxWeight := 0, occupiedWeight := 0, entries := [] } rfl⟩

theorem pushBackAll_eq {V : Type} (es : List (String × V)) :
    pushBackAll es = es := by
  have hgen : ∀ (l acc : List (String × V)),
      l.foldl (fun a e => a ++ [e]) acc = acc ++ l := by
    intro l
    induction l with
    | nil => intro acc; simp
    | cons a t ih => intro acc; simp [List.foldl, ih]
  simpa [pushBackAll] using hgen es []

/-- Claim C5: decoding the encoding of any cache reproduces the cache:
identical maxWeight, identical occupiedWeight, identical recency order
of entries, and an identical key to value mapping. -/
theorem c5_gob_roundtrip {V : Type} (c : Cache V) :
    GobDecode (GobEncode c) = c
      ∧ (GobDecode (GobEncode c)).maxWeight = c.maxWeight
      ∧ (GobDecode (GobEncode c)).occupiedWeight = c.occupiedWeight
      ∧ (GobDecode (GobEncode c)).entries = c.entries
      ∧ ∀ k, keyToValue (GobDecode (GobEncode c)) k = keyToValue c k := by
  have hroundtrip : GobDecode (GobEncode c) = c := by
    cases c with
    | mk mw ow es => simp [GobDecode, GobEncode, New, pushBackAll_eq]
  refine ⟨hroundtrip, ?_, ?_, ?_, ?_⟩
  · rw [hroundtrip]
  · rw [hroundtrip]
  · rw [hroundtrip]
  · intro k
    rw [hroundtrip]

/-- Witness for the round-trip property at a concrete populated cache. -/
theorem c5_gob_roundtrip_witness :
    GobDecode (GobEncode cacheAB) = cacheAB
      ∧ (GobDecode (GobEncode cacheAB)).maxWeight = cacheAB.maxWeight
      ∧ (GobDecode (GobEncode cacheAB)).occupiedWeight
        = cacheAB.occupiedWeight
      ∧ (GobDecode (GobEncode cacheAB)).entries = cacheAB.entries
      ∧ ∀ k, keyToValue (GobDecode (GobEncode cacheAB)) k
          = keyToValue cacheAB k :=
  c5_gob_roundtrip cacheAB

end Lrucache

namespace Downloader

open Lrucache

/-- Claim C6: the Download body is an unimplemented ToDo stub.  On a fresh
NOT_STARTED job, a Download call with waitForDownload false leaves the
job unchanged in NOT_STARTED (no transition to DOWNLOADING, no fetch is
started) and returns the zero JobStatus with the empty name instead of
the current status. -/
theorem c6_download_stub_no_transition :
    (Download initJob 0 false).2 = initJob
      ∧ (Download initJob 0 false).2.status.Name = NOT_STARTED
      ∧ (Download initJob 0 false).2.status.Name ≠ DOWNLOADING
      ∧ (Download initJob 0 false).1
        = { Name := "", Err := none, Offset := 0 }
      ∧ (Download initJob 0 false).1 ≠ initJob.status := by
  decide

/-- Claim C8: the Cancel body is an unimplemented ToDo stub.  On a
non-terminal job holding a subscriber, Cancel leaves the job unchanged:
the status stays NOT_STARTED rather than moving to CANCELLED and the
subscriber stays queued, unnotified. -/
theorem c8_cancel_stub_is_noop :
    Cancel c8Job = c8Job
      ∧ c8Job.status.Name = NOT_STARTED
      ∧ (Cancel c8Job).status.Name ≠ CANCELLED
      ∧ (Cancel c8Job).subscribers = [⟨1, 10⟩] := by
  decide

theorem notifySubscribers_spec (st : JobStatus) (subs : List JobSub) :
    notifySubscribers st subs
      = (subs.filter (fun s => ! readyToFire st s),
          (subs.filter (fun s => readyToFire st s)).map (fun s => (s, st))) := by
  induction subs with
  | nil => rfl
  | cons s rest ih =>
    cases hr : readyToFire st s with
    | true => simp [notifySubscribers, List.filter_cons, hr, ih]
    | false => simp [notifySubscribers, List.filter_cons, hr, ih]

/-- Claim C7: one notification pass fires exactly the subscribers whose
subscribed offset has been reached or whose job status is FAILED or
CANCELLED, each delivered the current status once and removed, in
insertion order, while every other subscriber remains queued; and a
fetch failure delivers the FAILED status carrying the failure error to
every subscriber, leaving none queued. -/
theorem c7_notify_fires_ready_in_order :
    (∀ (st : JobStatus) (subs : List JobSub),
        notifySubscribers st subs
          = (subs.filter (fun s => ! readyToFire st s),
              (subs.filter (fun s => readyToFire st s)).map (fun s => (s, st))))
      ∧ ∀ (downloadErr : String) (job : Job),
          (failWhileDownloading downloadErr job).1.status
              = { Name := FAILED, Err := some downloadErr,
                  Offset := job.status.Offset }
            ∧ (failWhileDownloading downloadErr job).1.subscribers = []
            ∧ (failWhileDownloading downloadErr job).2
              = job.subscribers.map (fun s =>
                  (s, { Name := FAILED, Err := some downloadErr,
                        Offset := job.status.Offset })) := by
  refine ⟨notifySubscribers_spec, ?_⟩
  intro downloadErr job
  have hready : ∀ s : JobSub,
      readyToFire { job.status with Err := some downloadErr, Name := FAILED }
        s = true := by
    intro s
    simp [readyToFire, FAILED]
  refine ⟨rfl, ?_, ?_⟩
  · show (notifySubscribers
        { job.status with Err := some downloadErr, Name := FAILED }
        job.subscribers).1 = []
    rw [notifySubscribers_spec]
    simp [hready]
  · show (notifySubscribers
        { job.status with Err := some downloadErr, Name := FAILED }
        job.subscribers).2
      = job.subscribers.map (fun s =>
          (s, { Name := FAILED, Err := some downloadErr,
                Offset := job.status.Offset }))
    rw [notifySubscribers_spec]
    simp [hready]

/-- Witness for the notification characterization at a concrete job: a
failing fetch fires subscribers at offsets 10, 1000 and 1000000 alike. -/
theorem c7_notify_fires_ready_in_order_witness :
    (failWhileDownloading "network error"
          { status := { Name := DOWNLOADING, Err := none, Offset := 50 },
            subscribers := [⟨1, 10⟩, ⟨2, 1000⟩, ⟨3, 1000000⟩] }).1.status
        = { Name := FAILED, Err := some "network error", Offset := 50 }
      ∧ (failWhileDownloading "network error"
            { status := { Name := DOWNLOADING, Err := none, Offset := 50 },
              subscribers :=
                [⟨1, 10⟩, ⟨2, 1000⟩, ⟨3, 1000000⟩] }).1.subscribers = []
      ∧ (failWhileDownloading "network error"
            { status := { Name := DOWNLOADING, Err := none, Offset := 50 },
              subscribers := [⟨1, 10⟩, ⟨2, 1000⟩, ⟨3, 1000000⟩] }).2
        = [⟨1, 10⟩, ⟨2, 1000⟩, ⟨3, 1000000⟩].map (fun s =>
            (s, { Name := FAILED, Err := some "network error",
                  Offset := 50 })) :=
  c7_notify_fires_ready_in_order.2 "network error"
    { status := { Name := DOWNLOADING, Err := none, Offset := 50 },
      subscribers := [⟨1, 10⟩, ⟨2, 1000⟩, ⟨3, 1000000⟩] }

theorem applyJobOp_mono (op : JobOp) (job : Job) :
    job.status.Offset ≤ (applyJobOp op job).status.Offset
      ∧ (terminalStatus job.status.Name →
          (applyJobOp op job).status.Offset = job.status.Offset
            ∧ terminalStatus (applyJobOp op job).status.Name) := by
  cases op with
  | download off w => exact ⟨le_refl _, fun ht => ⟨rfl, ht⟩⟩
  | cancel => exact ⟨le_refl _, fun ht => ⟨rfl, ht⟩⟩
  | failWhile e => exact ⟨le_refl _, fun ht => ⟨rfl, Or.inr (Or.inl rfl)⟩⟩
  | start =>
    by_cases hn : job.status.Name = NOT_STARTED
    · simp only [applyJobOp, startFetch, if_pos hn]
      refine ⟨le_refl _, fun ht => ?_⟩
      exfalso
      rcases ht with h | h | h <;> rw [hn] at h <;> exact absurd h (by decide)
    · simp only [applyJobOp, startFetch, if_neg hn]
      exact ⟨le_refl _, fun ht => ⟨by simp, ht⟩⟩
  | chunk n sz =>
    by_cases hn : job.status.Name = DOWNLOADING
    · simp only [applyJobOp, chunkProgress, if_pos hn]
      constructor
      · show job.status.Offset ≤ job.status.Offset + (n : Int)
        omega
      · intro ht
        exfalso
        rcases ht with h | h | h <;> rw [hn] at h <;> exact absurd h (by decide)
    · simp only [applyJobOp, chunkProgress, if_neg hn]
      exact ⟨le_refl _, fun ht => ⟨by simp, ht⟩⟩
  | cancelIntent =>
    by_cases hterm : job.status.Name = COMPLETED ∨ job.status.Name = FAILED ∨
        job.status.Name = CANCELLED
    · simp only [applyJobOp, cancelIntended, if_pos hterm]
      exact ⟨le_refl _, fun ht => ⟨by simp, ht⟩⟩
    · simp only [applyJobOp, cancelIntended, if_neg hterm]
      exact ⟨le_refl _, fun ht => absurd ht hterm⟩

/-- Claim C9: across every sequence of job operations (the Download and
Cancel calls of the source, fetch failure, and the spec-modelled fetch
start, fetch chunk and intended cancellation, the fetch loop itself
being absent from the repository), the status offset never decreases,
and once the status name is terminal the offset never changes again and
the name stays terminal. -/
theorem c9_offset_monotone_frozen (job : Job) (ops : List JobOp) :
    job.status.Offset ≤ (runJob ops job).status.Offset
      ∧ (terminalStatus job.status.Name →
          (runJob ops job).status.Offset = job.status.Offset
            ∧ terminalStatus (runJob ops job).status.Name) := by
  induction ops generalizing job with
  | nil => exact ⟨le_refl _, fun ht => ⟨rfl, ht⟩⟩
  | cons op rest ih =>
    have hop := applyJobOp_mono op job
    have hrest := ih (applyJobOp op job)
    rw [runJob]
    constructor
    · exact le_trans hop.1 hrest.1
    · intro ht
      have h1 := hop.2 ht
      have h2 := hrest.2 h1.2
      exact ⟨by rw [h2.1, h1.1], h2.2⟩

/-- Witness: running a concrete operation sequence from a concrete FAILED
job keeps the offset frozen at 50. -/
theorem c9_offset_monotone_frozen_witness :
    c9Job.status.Offset ≤ (runJob c9Ops c9Job).status.Offset
      ∧ (runJob c9Ops c9Job).status.Offset = c9Job.status.Offset :=
  ⟨(c9_offset_monotone_frozen c9Job c9Ops).1,
    ((c9_offset_monotone_frozen c9Job c9Ops).2 (Or.inr (Or.inl rfl))).1⟩

theorem LookUp_hit_front {V : Type} [ValueType V] (k : String)
    (c : Cache V) (v : V) (c2 : Cache V)
    (h : LookUp k c = (some v, c2)) :
    c2.entries.head? = some (k, v) := by
  rw [LookUp] at h
  cases hfind : findEntry k c.entries with
  | none => rw [hfind] at h; simp at h
  | some e =>
    rw [hfind] at h
    simp only [Prod.mk.injEq, Option.some.injEq] at h
    obtain ⟨hv, hc⟩ := h
    subst hv
    rw [hc.symm]
    rfl

/-- Claim C10: the background progress write updateFileInfoCache goes
through the ordinary Insert path of the cache; Insert leaves the written
entry at the front of the recency list (most recently used) whenever it
survives its own eviction pass, exactly as a LookUp hit leaves the read
entry at the front; so background download progress promotes the
recency of the entry just as a consumer read would. -/
theorem c10_progress_write_promotes_mru :
    (∀ (bucketName : String) (object : MinObject) (st : JobStatus)
        (cache : Cache FileInfo),
        updateFileInfoCache bucketName object st cache
          = Insert
              (FileInfoKey.Key
                { BucketName := bucketName, ObjectName := object.Name })
              (some
                { Key := { BucketName := bucketName, ObjectName := object.Name },
                  ObjectGeneration := object.Generation,
                  FileSize := object.Size,
                  Offset := int64ToUint64 st.Offset })
              cache)
      ∧ (∀ (k : String) (fi : FileInfo) (cache : Cache FileInfo)
            (vs : List FileInfo) (c2 : Cache FileInfo),
            Insert k (some fi) cache = Except.ok (vs, c2) →
            c2.entries = [] ∨ c2.entries.head? = some (k, fi))
      ∧ ∀ (k : String) (cache : Cache FileInfo) (fi : FileInfo)
          (c2 : Cache FileInfo),
          LookUp k cache = (some fi, c2) →
          c2.entries.head? = some (k, fi) := by
  refine ⟨fun bucketName object st cache => rfl, ?_, ?_⟩
  · intro k fi cache vs c2 h
    exact (Insert_ok_spec k fi cache vs c2 h).2.2.1
  · intro k cache fi c2 h
    exact LookUp_hit_front k cache fi c2 h

/-- Witness: a concrete progress write, a concrete Insert and a concrete
LookUp hit, each leaving the entry most recently used. -/
theorem c10_progress_write_promotes_mru_witness :
    (updateFileInfoCache "b" { Name := "o", Generation := 1, Size := 100 }
          { Name := DOWNLOADING, Err := none, Offset := 5 }
          (New FileInfo 1000)
        = Insert (FileInfoKey.Key { BucketName := "b", ObjectName := "o" })
            (some
              { Key := { BucketName := "b", ObjectName := "o" },
                ObjectGeneration := 1, FileSize := 100,
                Offset := int64ToUint64 5 })
            (New FileInfo 1000))
      ∧ (c10CacheAfter.entries = []
          ∨ c10CacheAfter.entries.head? = some ("k", c10Fi))
      ∧ c10CacheAfter.entries.head? = some ("k", c10Fi) :=
  ⟨c10_progress_write_promotes_mru.1 "b"
      { Name := "o", Generation := 1, Size := 100 }
      { Name := DOWNLOADING, Err := none, Offset := 5 } (New FileInfo 1000),
    c10_progress_write_promotes_mru.2.1 "k" c10Fi (New FileInfo 1000) []
      c10CacheAfter (by decide),
    c10_progress_write_promotes_mru.2.2 "k" c10CacheAfter c10Fi
      c10CacheAfter (by decide)⟩

end Downloader
